import Mathlib

/-!
Verification of the caching velocity-field evaluator
(vtkInterpolatedVelocityField, Filters/FlowPaths).

The repository ships only the class header
`src/Filters/FlowPaths/vtkInterpolatedVelocityField.h`; the bodies of
`FunctionValues(double*, double*)`, `SetLastCellId` and `SnapPointOnCell`
live in the implementation file that is not part of the sources here.
Definitions for those operations are therefore modelled from the spec
(`spec.md`, section 4.1 "CachingVelocityEvaluator"), as marked in their
doc comments.  The one inline body present in the header — the per-dataset
`FunctionValues(vtkDataSet*, double*, double*)` override that delegates to
the superclass — is embedded from the source.

The mesh collaborator (containment tests, cell location, interpolation) is
out of scope per the spec and is modelled as an abstract record of
functions, exactly the capability set the spec's section 6 lists.
-/

/-- Status codes of the evaluator, from the spec's error-handling design:
`Success`, `OutsideDomain` (point in no attached mesh), `NoActiveCell`
(projection requested with no cached cell), `IndexOutOfRange` (bad dataset
index in the administrative cache-seed call). -/
inductive Status where
  | Success
  | OutsideDomain
  | NoActiveCell
  | IndexOutOfRange
deriving DecidableEq, Repr

/-- Observable calls into the mesh collaborator, recorded as a trace so
that "stage N was never invoked" claims are statements about the trace:
a containment test of a specific cell, an adjacency-seeded cell search
(with its hint), or a global full-dataset search. -/
inductive CollabCall where
  | CPoint (cell : Int)
  | Near (hint : Option Int)
  | Global
deriving DecidableEq, Repr

/-- Modelled from the spec (section 6): the mesh collaborator capability
set.  `containsPoint cell x hint` returns the freshly computed local
weights when `x` lies in `cell` (the optional hint is the previous
parametric estimate, used only to speed up the test); `findCellNear` is
the adjacency-seeded search, `findCellGlobal` the full-dataset search,
`interpolateAt` blends the per-node samples of a cell with given weights,
and `snapToCell` projects a point onto a cell. -/
structure Mesh (P V : Type) where
  containsPoint : Int → P → Option (List Int) → Option (List Int)
  findCellNear : P → Option Int → Option Int
  findCellGlobal : P → Option Int
  interpolateAt : Int → List Int → V
  snapToCell : Int → P → P

/-- A mesh whose containment test is a genuine containment test: its
outcome depends only on the cell and the point, the optional hint being a
speed hint only.  The spec's tie-break policy makes the containment test
"the single source of truth for which cell owns the point", which is only
coherent under this condition. -/
def HintIndep {P V : Type} (m : Mesh P V) : Prop :=
  ∀ c x h, m.containsPoint c x h = m.containsPoint c x none

/-- Per-dataset cache entry, from the spec's data model: the last resolved
cell id (or none), the local interpolation weights of the last resolved
point, and a validity flag tying the weights to the cell id. -/
structure CacheEntry where
  cellId : Option Int
  weights : List Int
  valid : Bool
deriving DecidableEq, Repr

/-- A freshly allocated cache entry: no cell, no valid weights. -/
def emptyCache : CacheEntry := ⟨none, [], false⟩

/-- Modelled from the spec: the evaluator state.  It reports 4 independent
variables (x, y, z, t) and 3 function components, holds non-owning
references to the attached datasets, one cache entry per dataset, and the
index of the dataset that last resolved successfully. -/
structure Evaluator (P V : Type) where
  numIndepVars : Nat
  numFuncs : Nat
  datasets : List (Mesh P V)
  caches : List CacheEntry
  lastDataSetIndex : Nat

/-- Modelled from the spec: a freshly constructed evaluator holds no
dataset and has empty cache state. -/
def Evaluator.new (P V : Type) : Evaluator P V :=
  { numIndepVars := 4
    numFuncs := 3
    datasets := []
    caches := []
    lastDataSetIndex := 0 }

/-- Modelled from the spec: `AddDataSet` attaches a mesh reference and
allocates an empty cache entry for it (append-only arena). -/
def addDataSet {P V : Type} (e : Evaluator P V) (m : Mesh P V) : Evaluator P V :=
  { e with
    datasets := e.datasets ++ [m]
    caches := e.caches ++ [emptyCache] }

/-- Modelled from the spec: `SetLastCellId(c, dataindex)` seeds the cache
entry of dataset `idx` with cell id `c` without recomputing local weights,
so the entry's weights are flagged invalid; the seeded dataset becomes the
active one so the next evaluation uses the seed.  An out-of-range index is
an error and changes nothing. -/
def setLastCellId {P V : Type} (e : Evaluator P V) (c : Int) (idx : Nat) :
    Status × Evaluator P V :=
  match e.caches[idx]? with
  | some ce =>
      (Status.Success,
        { e with
          caches := e.caches.set idx { ce with cellId := some c, valid := false }
          lastDataSetIndex := idx })
  | none => (Status.IndexOutOfRange, e)

/-- Modelled from the spec: `SnapPointOnCell` projects a point onto the
currently cached cell of the active dataset; it requires a cached cell
(from a prior successful resolution or an administrative seed) and fails
with `NoActiveCell` otherwise, producing no projected point. -/
def snapPointOnCell {P V : Type} (e : Evaluator P V) (pOrigin : P) :
    Option P × Status :=
  match e.datasets[e.lastDataSetIndex]?, e.caches[e.lastDataSetIndex]? with
  | some m, some ce =>
      match ce.cellId with
      | some c => (some (m.snapToCell c pOrigin), Status.Success)
      | none => (none, Status.NoActiveCell)
  | _, _ => (none, Status.NoActiveCell)

/-- Modelled from the spec (stage 1, intra-cell): if the cache entry is
valid, test whether the point still lies in the cached cell, passing the
previous local weights as the initial guess.  No other cell or dataset is
touched; the trace records the single containment test. -/
def stage1 {P V : Type} (m : Mesh P V) (ce : CacheEntry) (x : P) :
    Option (Int × List Int) × List CollabCall :=
  if ce.valid then
    match ce.cellId with
    | some c =>
        ((m.containsPoint c x (some ce.weights)).map (fun w => (c, w)),
          [CollabCall.CPoint c])
    | none => (none, [])
  else (none, [])

/-- Modelled from the spec (stage 2, inter-cell): locate the containing
cell seeded with the previous cell as an adjacency hint; the stage fails
immediately when no hint is available.  A located cell's weights are then
computed by a fresh containment test (no stale hint). -/
def stage2 {P V : Type} (m : Mesh P V) (ce : CacheEntry) (x : P) :
    Option (Int × List Int) × List CollabCall :=
  match ce.cellId with
  | some hint =>
      match m.findCellNear x (some hint) with
      | some c =>
          ((m.containsPoint c x none).map (fun w => (c, w)),
            [CollabCall.Near (some hint), CollabCall.CPoint c])
      | none => (none, [CollabCall.Near (some hint)])
  | none => (none, [])

/-- Modelled from the spec (stage 3, global): locate the containing cell
by full-dataset search, then compute its weights by a fresh containment
test. -/
def stage3 {P V : Type} (m : Mesh P V) (x : P) :
    Option (Int × List Int) × List CollabCall :=
  match m.findCellGlobal x with
  | some c =>
      ((m.containsPoint c x none).map (fun w => (c, w)),
        [CollabCall.Global, CollabCall.CPoint c])
  | none => (none, [CollabCall.Global])

/-- Modelled from the spec: resolution of a query point against one
dataset, trying the three stages in order and stopping at the first that
succeeds; the returned trace concatenates the collaborator calls of the
attempted stages in order. -/
def resolveInDataset {P V : Type} (m : Mesh P V) (ce : CacheEntry) (x : P) :
    Option (Int × List Int) × List CollabCall :=
  match stage1 m ce x with
  | (some r, t1) => (some r, t1)
  | (none, t1) =>
      match stage2 m ce x with
      | (some r, t2) => (some r, t1 ++ t2)
      | (none, t2) =>
          match stage3 m x with
          | (r, t3) => (r, t1 ++ t2 ++ t3)

/-- Modelled from the spec: the order in which attached datasets are
tried — the active dataset (the one that last succeeded) first, then the
remaining datasets in attachment order. -/
def datasetOrder {P V : Type} (e : Evaluator P V) : List Nat :=
  if e.lastDataSetIndex < e.datasets.length then
    e.lastDataSetIndex ::
      (List.range e.datasets.length).filter (fun i => i ≠ e.lastDataSetIndex)
  else List.range e.datasets.length

/-- Modelled from the spec: try the listed datasets in order, each with
its own independent cache entry, stopping at the first successful
resolution; the trace tags every collaborator call with the index of the
dataset it was made against. -/
def tryDatasets {P V : Type} (e : Evaluator P V) (x : P) :
    List Nat → Option (Nat × Mesh P V × Int × List Int) × List (Nat × CollabCall)
  | [] => (none, [])
  | i :: rest =>
      match e.datasets[i]?, e.caches[i]? with
      | some m, some ce =>
          match resolveInDataset m ce x with
          | (some (c, w), t) => (some (i, m, c, w), t.map (fun cc => (i, cc)))
          | (none, t) =>
              match tryDatasets e x rest with
              | (res, t2) => (res, t.map (fun cc => (i, cc)) ++ t2)
      | _, _ => tryDatasets e x rest

/-- Result of one `Evaluate` call: the interpolated vector (none exactly
on failure), the status code, the evaluator state after the call, and the
trace of collaborator calls made. -/
structure EvalResult (P V : Type) where
  value : Option V
  status : Status
  state : Evaluator P V
  trace : List (Nat × CollabCall)

/-- Modelled from the spec: `Evaluate(x)`.  Datasets are tried in
`datasetOrder`; on the first successful resolution the resolving
dataset's cache entry is overwritten with the new cell id and weights,
that dataset becomes the active one, and the vector is interpolated from
the freshly computed weights.  If every dataset fails, the call returns
`OutsideDomain` with no vector and the state — every cache entry
included — untouched. -/
def evaluate {P V : Type} (e : Evaluator P V) (x : P) : EvalResult P V :=
  match tryDatasets e x (datasetOrder e) with
  | (some (i, m, c, w), t) =>
      { value := some (m.interpolateAt c w)
        status := Status.Success
        state := { e with
          caches := e.caches.set i ⟨some c, w, true⟩
          lastDataSetIndex := i }
        trace := t }
  | (none, t) =>
      { value := none
        status := Status.OutsideDomain
        state := e
        trace := t }

/-- Whether a trace contains an adjacency-seeded search call. -/
def hasNearCall (t : List CollabCall) : Bool :=
  t.any fun cc => match cc with | CollabCall.Near _ => true | _ => false

/-- Whether a trace contains a global-search call. -/
def hasGlobalCall (t : List CollabCall) : Bool :=
  t.any fun cc => match cc with | CollabCall.Global => true | _ => false

/-- Evaluator states reachable from construction through the public
operations. -/
inductive Reachable {P V : Type} : Evaluator P V → Prop where
  | new : Reachable (Evaluator.new P V)
  | add {e : Evaluator P V} (m : Mesh P V) :
      Reachable e → Reachable (addDataSet e m)
  | seed {e : Evaluator P V} (c : Int) (idx : Nat) :
      Reachable e → Reachable (setLastCellId e c idx).2
  | eval {e : Evaluator P V} (x : P) :
      Reachable e → Reachable (evaluate e x).state

/-- A concrete one-dimensional two-cell mesh used to witness the
theorems: cell 0 covers [0, 10), cell 1 covers [10, 20); the weight of a
point is the point itself and interpolation returns cell id plus weight
sum. -/
def cellOf (x : Int) : Option Int :=
  if 0 ≤ x ∧ x < 10 then some 0
  else if 10 ≤ x ∧ x < 20 then some 1
  else none

/-- Concrete sample mesh over `cellOf`; its containment test ignores the
hint, its adjacency-seeded search works only when given a hint, and its
global search always locates the containing cell. -/
def msample : Mesh Int Int where
  containsPoint c x _ := if cellOf x = some c then some [x] else none
  findCellNear x hint := match hint with | some _ => cellOf x | none => none
  findCellGlobal x := cellOf x
  interpolateAt c w := c + w.foldl (fun a b => a + b) 0
  snapToCell _ x := x

/-- Sample evaluator with the one sample dataset attached. -/
def esample : Evaluator Int Int := addDataSet (Evaluator.new Int Int) msample

/-- Modelled from the spec: the superclass
(vtkCompositeInterpolatedVelocityField) per-dataset evaluation
`FunctionValues(ds, x, f)` — resolve the point within the one given
dataset via the three-stage search over its cache entry, and on success
interpolate and refresh the entry. -/
def superclassFunctionValues {P V : Type} (m : Mesh P V) (ce : CacheEntry)
    (x : P) : Status × Option V × CacheEntry :=
  match (resolveInDataset m ce x).1 with
  | some (c, w) => (Status.Success, some (m.interpolateAt c w), ⟨some c, w, true⟩)
  | none => (Status.OutsideDomain, none, ce)

/-- From the source (vtkInterpolatedVelocityField.h, lines 123-126): the
subclass override of the per-dataset `FunctionValues` whose entire body is
`return this->Superclass::FunctionValues(ds, x, f)`.  The superclass
implementation is taken as the parameter `superFV`, so the delegation is
stated for every superclass behavior. -/
def subclassFunctionValues {P V : Type}
    (superFV : Mesh P V → CacheEntry → P → Status × Option V × CacheEntry)
    (m : Mesh P V) (ce : CacheEntry) (x : P) : Status × Option V × CacheEntry :=
  superFV m ce x

/-! ### Helper lemmas about the stages -/

theorem stage1_of_invalid {P V : Type} (m : Mesh P V) (ce : CacheEntry) (x : P)
    (h : ce.valid = false) : stage1 m ce x = (none, []) := by
  simp [stage1, h]

theorem stage1_eq_of_valid {P V : Type} (m : Mesh P V) (ce : CacheEntry) (x : P)
    (c : Int) (hv : ce.valid = true) (hc : ce.cellId = some c) :
    stage1 m ce x =
      ((m.containsPoint c x (some ce.weights)).map (fun w => (c, w)),
        [CollabCall.CPoint c]) := by
  simp [stage1, hv, hc]

theorem stage1_some_inv {P V : Type} {m : Mesh P V} {ce : CacheEntry} {x : P}
    {c : Int} {w : List Int} {t : List CollabCall}
    (h : stage1 m ce x = (some (c, w), t)) :
    ce.valid = true ∧ ce.cellId = some c ∧
      m.containsPoint c x (some ce.weights) = some w ∧
      t = [CollabCall.CPoint c] := by
  obtain ⟨cid, wts, vld⟩ := ce
  cases vld with
  | false => exact absurd h (by simp [stage1])
  | true =>
      cases cid with
      | none => exact absurd h (by simp [stage1])
      | some c' =>
          simp only [stage1, if_true] at h
          have h1 : (m.containsPoint c' x (some wts)).map (fun w => (c', w)) =
              some (c, w) := congrArg Prod.fst h
          have h2 : ([CollabCall.CPoint c'] : List CollabCall) = t :=
            congrArg Prod.snd h
          rcases Option.map_eq_some'.mp h1 with ⟨w', hw', heq⟩
          cases heq
          exact ⟨rfl, rfl, hw', h2.symm⟩

theorem stage2_some_inv {P V : Type} {m : Mesh P V} {ce : CacheEntry} {x : P}
    {c : Int} {w : List Int} {t : List CollabCall}
    (h : stage2 m ce x = (some (c, w), t)) :
    ∃ hint, ce.cellId = some hint ∧ m.findCellNear x (some hint) = some c ∧
      m.containsPoint c x none = some w := by
  obtain ⟨cid, wts, vld⟩ := ce
  cases cid with
  | none => exact absurd h (by simp [stage2])
  | some hint =>
      cases hn : m.findCellNear x (some hint) with
      | none => simp [stage2, hn] at h
      | some c' =>
          simp only [stage2, hn] at h
          have h1 : (m.containsPoint c' x none).map (fun w => (c', w)) =
              some (c, w) := congrArg Prod.fst h
          rcases Option.map_eq_some'.mp h1 with ⟨w', hw', heq⟩
          cases heq
          exact ⟨hint, rfl, hn, hw'⟩

theorem stage3_some_inv {P V : Type} {m : Mesh P V} {x : P}
    {c : Int} {w : List Int} {t : List CollabCall}
    (h : stage3 m x = (some (c, w), t)) :
    m.findCellGlobal x = some c ∧ m.containsPoint c x none = some w := by
  cases hg : m.findCellGlobal x with
  | none => simp [stage3, hg] at h
  | some c' =>
      simp only [stage3, hg] at h
      have h1 : (m.containsPoint c' x none).map (fun w => (c', w)) =
          some (c, w) := congrArg Prod.fst h
      rcases Option.map_eq_some'.mp h1 with ⟨w', hw', heq⟩
      cases heq
      exact ⟨rfl, hw'⟩

theorem stage1_trace {P V : Type} (m : Mesh P V) (ce : CacheEntry) (x : P) :
    (stage1 m ce x).2 = [] ∨ ∃ c, (stage1 m ce x).2 = [CollabCall.CPoint c] := by
  obtain ⟨cid, wts, vld⟩ := ce
  cases vld with
  | false => exact Or.inl rfl
  | true =>
      cases cid with
      | none => exact Or.inl rfl
      | some c => exact Or.inr ⟨c, rfl⟩

theorem stage2_no_global {P V : Type} (m : Mesh P V) (ce : CacheEntry) (x : P) :
    hasGlobalCall (stage2 m ce x).2 = false := by
  obtain ⟨cid, wts, vld⟩ := ce
  cases cid with
  | none => rfl
  | some hint =>
      cases hn : m.findCellNear x (some hint) with
      | none => simp [stage2, hn, hasGlobalCall]
      | some c => simp [stage2, hn, hasGlobalCall]

theorem hasNearCall_of_cpoint {c : Int} : hasNearCall [CollabCall.CPoint c] = false := rfl

theorem hasGlobalCall_append (a b : List CollabCall) :
    hasGlobalCall (a ++ b) = (hasGlobalCall a || hasGlobalCall b) := by
  simp [hasGlobalCall, List.any_append]

theorem resolve_of_stage1 {P V : Type} {m : Mesh P V} {ce : CacheEntry} {x : P}
    {r : Int × List Int} {t1 : List CollabCall}
    (h : stage1 m ce x = (some r, t1)) :
    resolveInDataset m ce x = (some r, t1) := by
  unfold resolveInDataset
  rw [h]

theorem resolve_of_stage2 {P V : Type} {m : Mesh P V} {ce : CacheEntry} {x : P}
    {r : Int × List Int} {t1 t2 : List CollabCall}
    (h1 : stage1 m ce x = (none, t1)) (h2 : stage2 m ce x = (some r, t2)) :
    resolveInDataset m ce x = (some r, t1 ++ t2) := by
  unfold resolveInDataset
  rw [h1, h2]

theorem resolve_of_stage3 {P V : Type} {m : Mesh P V} {ce : CacheEntry} {x : P}
    {t1 t2 : List CollabCall}
    (h1 : stage1 m ce x = (none, t1)) (h2 : stage2 m ce x = (none, t2)) :
    resolveInDataset m ce x = ((stage3 m x).1, t1 ++ t2 ++ (stage3 m x).2) := by
  unfold resolveInDataset
  rw [h1, h2]

theorem resolve_some_inv {P V : Type} {m : Mesh P V} {ce : CacheEntry} {x : P}
    {c : Int} {w : List Int}
    (h : (resolveInDataset m ce x).1 = some (c, w)) :
    (∃ t, stage1 m ce x = (some (c, w), t)) ∨
    (∃ t, stage2 m ce x = (some (c, w), t)) ∨
    (∃ t, stage3 m x = (some (c, w), t)) := by
  rcases hs1 : stage1 m ce x with ⟨r1, t1⟩
  cases r1 with
  | some r =>
      rw [resolve_of_stage1 hs1] at h
      obtain rfl := Option.some.inj h
      exact Or.inl ⟨t1, rfl⟩
  | none =>
      rcases hs2 : stage2 m ce x with ⟨r2, t2⟩
      cases r2 with
      | some r =>
          rw [resolve_of_stage2 hs1 hs2] at h
          obtain rfl := Option.some.inj h
          exact Or.inr (Or.inl ⟨t2, rfl⟩)
      | none =>
          rw [resolve_of_stage3 hs1 hs2] at h
          rcases hs3 : stage3 m x with ⟨r3, t3⟩
          rw [hs3] at h
          simp only at h
          subst h
          exact Or.inr (Or.inr ⟨t3, rfl⟩)

theorem resolve_contains {P V : Type} {m : Mesh P V} {ce : CacheEntry} {x : P}
    {c : Int} {w : List Int}
    (h : (resolveInDataset m ce x).1 = some (c, w)) :
    m.containsPoint c x (some ce.weights) = some w ∨
    m.containsPoint c x none = some w := by
  rcases resolve_some_inv h with ⟨t, h1⟩ | ⟨t, h2⟩ | ⟨t, h3⟩
  · exact Or.inl (stage1_some_inv h1).2.2.1
  · rcases stage2_some_inv h2 with ⟨hint, _, _, hcp⟩
    exact Or.inr hcp
  · exact Or.inr (stage3_some_inv h3).2

theorem resolve_contains_of_invalid {P V : Type} {m : Mesh P V} {ce : CacheEntry}
    {x : P} {c : Int} {w : List Int}
    (hv : ce.valid = false)
    (h : (resolveInDataset m ce x).1 = some (c, w)) :
    m.containsPoint c x none = some w := by
  rcases resolve_some_inv h with ⟨t, h1⟩ | ⟨t, h2⟩ | ⟨t, h3⟩
  · have := (stage1_some_inv h1).1
    rw [hv] at this
    exact absurd this (by simp)
  · rcases stage2_some_inv h2 with ⟨hint, _, _, hcp⟩
    exact hcp
  · exact (stage3_some_inv h3).2

theorem resolve_contains_of_hintIndep {P V : Type} {m : Mesh P V} {ce : CacheEntry}
    {x : P} {c : Int} {w : List Int}
    (hm : HintIndep m)
    (h : (resolveInDataset m ce x).1 = some (c, w)) :
    m.containsPoint c x none = some w := by
  rcases resolve_contains h with h' | h'
  · rw [hm c x (some ce.weights)] at h'
    exact h'
  · exact h'

/-! ### Helper lemmas about the multi-dataset loop -/

theorem tryDatasets_some_inv {P V : Type} (e : Evaluator P V) (x : P) :
    ∀ (l : List Nat) (i : Nat) (m : Mesh P V) (c : Int) (w : List Int)
      (t : List (Nat × CollabCall)),
      tryDatasets e x l = (some (i, m, c, w), t) →
      e.datasets[i]? = some m ∧
        ∃ ce, e.caches[i]? = some ce ∧ (resolveInDataset m ce x).1 = some (c, w)
  | [], i, m, c, w, t, h => by simp [tryDatasets] at h
  | j :: rest, i, m, c, w, t, h => by
      rw [tryDatasets] at h
      cases hd : e.datasets[j]? with
      | none =>
          rw [hd] at h
          dsimp only at h
          exact tryDatasets_some_inv e x rest i m c w t h
      | some m' =>
          rw [hd] at h
          cases hc : e.caches[j]? with
          | none =>
              rw [hc] at h
              dsimp only at h
              exact tryDatasets_some_inv e x rest i m c w t h
          | some ce =>
              rw [hc] at h
              dsimp only at h
              rcases hr : resolveInDataset m' ce x with ⟨r, tr⟩
              rw [hr] at h
              cases r with
              | some cw =>
                  rcases cw with ⟨c', w'⟩
                  dsimp only at h
                  have h1 : (some (j, m', c', w') :
                      Option (Nat × Mesh P V × Int × List Int)) =
                      some (i, m, c, w) := congrArg Prod.fst h
                  have h2 := Option.some.inj h1
                  have hji : j = i := congrArg (fun p => p.1) h2
                  have hmm : m' = m := congrArg (fun p => p.2.1) h2
                  have hcc : c' = c := congrArg (fun p => p.2.2.1) h2
                  have hww : w' = w := congrArg (fun p => p.2.2.2) h2
                  subst hji; subst hmm; subst hcc; subst hww
                  exact ⟨hd, ce, hc, by rw [hr]⟩
              | none =>
                  dsimp only at h
                  rcases ht : tryDatasets e x rest with ⟨res, t2⟩
                  rw [ht] at h
                  dsimp only at h
                  have h1 : res = some (i, m, c, w) := congrArg Prod.fst h
                  subst h1
                  exact tryDatasets_some_inv e x rest i m c w t2 ht

theorem tryDatasets_none_of_allFail {P V : Type} (e : Evaluator P V) (x : P)
    (hfail : ∀ (i : Nat) (m : Mesh P V) (ce : CacheEntry),
      e.datasets[i]? = some m → e.caches[i]? = some ce →
      (resolveInDataset m ce x).1 = none) :
    ∀ (l : List Nat), (tryDatasets e x l).1 = none
  | [] => by simp [tryDatasets]
  | j :: rest => by
      rw [tryDatasets]
      cases hd : e.datasets[j]? with
      | none =>
          dsimp only
          exact tryDatasets_none_of_allFail e x hfail rest
      | some m =>
          cases hc : e.caches[j]? with
          | none =>
              dsimp only
              exact tryDatasets_none_of_allFail e x hfail rest
          | some ce =>
              dsimp only
              rcases hr : resolveInDataset m ce x with ⟨r, tr⟩
              have hrn : r = none := by
                have := hfail j m ce hd hc
                rw [hr] at this
                exact this
              subst hrn
              dsimp only
              rcases ht : tryDatasets e x rest with ⟨res, t2⟩
              have hresn : res = none := by
                have := tryDatasets_none_of_allFail e x hfail rest
                rw [ht] at this
                exact this
              subst hresn
              dsimp only

/-! ### Dimension-preservation helpers -/

theorem addDataSet_dims {P V : Type} (e : Evaluator P V) (m : Mesh P V) :
    (addDataSet e m).numIndepVars = e.numIndepVars ∧
    (addDataSet e m).numFuncs = e.numFuncs := ⟨rfl, rfl⟩

theorem setLastCellId_dims {P V : Type} (e : Evaluator P V) (c : Int) (idx : Nat) :
    (setLastCellId e c idx).2.numIndepVars = e.numIndepVars ∧
    (setLastCellId e c idx).2.numFuncs = e.numFuncs := by
  unfold setLastCellId
  cases e.caches[idx]? with
  | some ce => exact ⟨rfl, rfl⟩
  | none => exact ⟨rfl, rfl⟩

theorem evaluate_dims {P V : Type} (e : Evaluator P V) (x : P) :
    (evaluate e x).state.numIndepVars = e.numIndepVars ∧
    (evaluate e x).state.numFuncs = e.numFuncs := by
  unfold evaluate
  rcases tryDatasets e x (datasetOrder e) with ⟨r, t⟩
  cases r with
  | some q =>
      rcases q with ⟨i, m, c, w⟩
      exact ⟨rfl, rfl⟩
  | none => exact ⟨rfl, rfl⟩

/-! ### Claim theorems -/

/-- C1: for every dataset, `Evaluate`'s per-dataset resolution attempts
exactly three stages in order — intra-cell test against the cached cell,
adjacency-seeded inter-cell search, then global search — and stops at the
first stage that succeeds: if stage 1 succeeds the trace shows no
adjacency-seeded and no global search call; if stage 1 fails and stage 2
succeeds the trace shows no global search call; stage 3 runs only after
stages 1 and 2 both failed, with the traces concatenated in stage
order. -/
theorem resolveInDataset_three_stage_short_circuit {P V : Type}
    (m : Mesh P V) (ce : CacheEntry) (x : P) :
    (∀ r t1, stage1 m ce x = (some r, t1) →
        resolveInDataset m ce x = (some r, t1) ∧
        hasNearCall t1 = false ∧ hasGlobalCall t1 = false) ∧
    (∀ r t1 t2, stage1 m ce x = (none, t1) → stage2 m ce x = (some r, t2) →
        resolveInDataset m ce x = (some r, t1 ++ t2) ∧
        hasGlobalCall (t1 ++ t2) = false) ∧
    (∀ t1 t2, stage1 m ce x = (none, t1) → stage2 m ce x = (none, t2) →
        resolveInDataset m ce x = ((stage3 m x).1, t1 ++ t2 ++ (stage3 m x).2)) := by
  refine ⟨?_, ?_, ?_⟩
  · intro r t1 h1
    refine ⟨resolve_of_stage1 h1, ?_, ?_⟩
    · have h := stage1_trace m ce x
      rw [h1] at h
      dsimp only at h
      rcases h with h | ⟨c, h⟩ <;> subst h <;> rfl
    · have h := stage1_trace m ce x
      rw [h1] at h
      dsimp only at h
      rcases h with h | ⟨c, h⟩ <;> subst h <;> rfl
  · intro r t1 t2 h1 h2
    refine ⟨resolve_of_stage2 h1 h2, ?_⟩
    rw [hasGlobalCall_append]
    have hg1 : hasGlobalCall t1 = false := by
      have h := stage1_trace m ce x
      rw [h1] at h
      dsimp only at h
      rcases h with h | ⟨c, h⟩ <;> subst h <;> rfl
    have hg2 : hasGlobalCall t2 = false := by
      have h := stage2_no_global m ce x
      rw [h2] at h
      exact h
    rw [hg1, hg2]
    rfl
  · intro t1 t2 h1 h2
    exact resolve_of_stage3 h1 h2

/-- Witness for C1: on the sample mesh, a valid cache entry for cell 0
and a point still in cell 0 resolve through stage 1 alone (and on an
empty cache entry with a point outside the mesh, resolution falls through
to stage 3). -/
theorem resolveInDataset_three_stage_short_circuit_witness :
    (resolveInDataset msample ⟨some 0, [5], true⟩ 5 =
        (some (0, [5]), [CollabCall.CPoint 0]) ∧
      hasNearCall [CollabCall.CPoint 0] = false ∧
      hasGlobalCall [CollabCall.CPoint 0] = false) ∧
    resolveInDataset msample emptyCache 25 =
      ((stage3 msample 25).1, ([] : List CollabCall) ++ [] ++ (stage3 msample 25).2) :=
  ⟨(resolveInDataset_three_stage_short_circuit msample ⟨some 0, [5], true⟩ 5).1
      (0, [5]) [CollabCall.CPoint 0] (by decide),
    (resolveInDataset_three_stage_short_circuit msample emptyCache 25).2.2
      [] [] (by decide) (by decide)⟩

/-- C4: a `SetLastCellId(c, idx)` call whose dataset index is not the
index of an attached dataset fails with `IndexOutOfRange` and leaves the
evaluator — every cache entry included — exactly as it was. -/
theorem setLastCellId_out_of_range {P V : Type} (e : Evaluator P V) (c : Int)
    (idx : Nat) (hwf : e.caches.length = e.datasets.length)
    (h : e.datasets.length ≤ idx) :
    setLastCellId e c idx = (Status.IndexOutOfRange, e) := by
  have hn : e.caches[idx]? = none := List.getElem?_eq_none (by omega)
  unfold setLastCellId
  rw [hn]

/-- Witness for C4: seeding dataset index 5 of the sample evaluator,
which has a single attached dataset, fails with `IndexOutOfRange` and
changes nothing. -/
theorem setLastCellId_out_of_range_witness :
    setLastCellId esample 7 5 = (Status.IndexOutOfRange, esample) :=
  setLastCellId_out_of_range esample 7 5 rfl (by decide)

/-- C5: when the active dataset has no cached cell (no prior successful
resolution and no administrative seed), `SnapPointOnCell` fails with
`NoActiveCell` and produces no projected point. -/
theorem snapPointOnCell_noActiveCell {P V : Type} (e : Evaluator P V) (p : P)
    (h : ∀ ce, e.caches[e.lastDataSetIndex]? = some ce → ce.cellId = none) :
    snapPointOnCell e p = (none, Status.NoActiveCell) := by
  unfold snapPointOnCell
  cases hd : e.datasets[e.lastDataSetIndex]? with
  | none => rfl
  | some m =>
      cases hc : e.caches[e.lastDataSetIndex]? with
      | none => rfl
      | some ce =>
          dsimp only
          rw [h ce hc]

/-- Witness for C5: the freshly attached sample evaluator has an empty
cache entry, so projection fails with `NoActiveCell`. -/
theorem snapPointOnCell_noActiveCell_witness :
    snapPointOnCell esample 3 = (none, Status.NoActiveCell) :=
  snapPointOnCell_noActiveCell esample 3 (fun ce hce => by
    have h' := Option.some.inj hce
    rw [← h']
    rfl)

/-- C7: every evaluator state reachable from construction through the
public operations reports exactly 4 independent variables (x, y, z, t)
and exactly 3 function components. -/
theorem evaluator_reports_4_vars_3_funcs {P V : Type} (e : Evaluator P V)
    (h : Reachable e) : e.numIndepVars = 4 ∧ e.numFuncs = 3 := by
  induction h with
  | new => exact ⟨rfl, rfl⟩
  | add m _ ih =>
      exact ⟨(addDataSet_dims _ m).1.trans ih.1, (addDataSet_dims _ m).2.trans ih.2⟩
  | seed c idx _ ih =>
      exact ⟨(setLastCellId_dims _ c idx).1.trans ih.1,
        (setLastCellId_dims _ c idx).2.trans ih.2⟩
  | eval x _ ih =>
      exact ⟨(evaluate_dims _ x).1.trans ih.1, (evaluate_dims _ x).2.trans ih.2⟩

/-- Witness for C7: the sample evaluator, reached by attaching a dataset
to a fresh instance, reports 4 independent variables and 3 functions. -/
theorem evaluator_reports_4_vars_3_funcs_witness :
    esample.numIndepVars = 4 ∧ esample.numFuncs = 3 :=
  evaluator_reports_4_vars_3_funcs esample (Reachable.add msample Reachable.new)

/-- C10: the subclass per-dataset `FunctionValues` override returns
exactly what the superclass implementation returns on the same dataset,
cache entry and point, whatever that superclass behavior is — in
particular on the spec-modelled composite behavior — so the subclass adds
no per-dataset behavior of its own. -/
theorem subclass_functionValues_delegates {P V : Type}
    (superFV : Mesh P V → CacheEntry → P → Status × Option V × CacheEntry)
    (m : Mesh P V) (ce : CacheEntry) (x : P) :
    subclassFunctionValues superFV m ce x = superFV m ce x ∧
    subclassFunctionValues (superclassFunctionValues) m ce x =
      superclassFunctionValues m ce x :=
  ⟨rfl, rfl⟩

/-! ### Evaluate-level helpers -/

theorem evaluate_of_try_some {P V : Type} {e : Evaluator P V} {x : P} {i : Nat}
    {m : Mesh P V} {c : Int} {w : List Int} {t : List (Nat × CollabCall)}
    (h : tryDatasets e x (datasetOrder e) = (some (i, m, c, w), t)) :
    evaluate e x =
      { value := some (m.interpolateAt c w)
        status := Status.Success
        state := { e with
          caches := e.caches.set i ⟨some c, w, true⟩
          lastDataSetIndex := i }
        trace := t } := by
  unfold evaluate
  rw [h]

theorem evaluate_of_try_none {P V : Type} {e : Evaluator P V} {x : P}
    {t : List (Nat × CollabCall)}
    (h : tryDatasets e x (datasetOrder e) = (none, t)) :
    evaluate e x =
      { value := none, status := Status.OutsideDomain, state := e, trace := t } := by
  unfold evaluate
  rw [h]

theorem evaluate_success_inv {P V : Type} {e : Evaluator P V} {x : P}
    (h : (evaluate e x).status = Status.Success) :
    ∃ i m c w t, tryDatasets e x (datasetOrder e) = (some (i, m, c, w), t) := by
  rcases ht : tryDatasets e x (datasetOrder e) with ⟨r, t⟩
  cases r with
  | some q =>
      rcases q with ⟨i, m, c, w⟩
      exact ⟨i, m, c, w, t, rfl⟩
  | none =>
      rw [evaluate_of_try_none ht] at h
      exact absurd h (by simp)

theorem evaluate_outside_inv {P V : Type} {e : Evaluator P V} {x : P}
    (h : (evaluate e x).status = Status.OutsideDomain) :
    ∃ t, tryDatasets e x (datasetOrder e) = (none, t) := by
  rcases ht : tryDatasets e x (datasetOrder e) with ⟨r, t⟩
  cases r with
  | some q =>
      rcases q with ⟨i, m, c, w⟩
      rw [evaluate_of_try_some ht] at h
      exact absurd h (by simp)
  | none => exact ⟨t, rfl⟩

/-- C2: when resolution fails on every attached dataset (each dataset's
three stages all fail), `Evaluate` returns the `OutsideDomain` status and
produces no vector value at all. -/
theorem evaluate_outsideDomain_no_vector {P V : Type} (e : Evaluator P V) (x : P)
    (hfail : ∀ (i : Nat) (m : Mesh P V) (ce : CacheEntry),
      e.datasets[i]? = some m → e.caches[i]? = some ce →
      (resolveInDataset m ce x).1 = none) :
    (evaluate e x).status = Status.OutsideDomain ∧ (evaluate e x).value = none := by
  have h := tryDatasets_none_of_allFail e x hfail (datasetOrder e)
  rcases ht : tryDatasets e x (datasetOrder e) with ⟨r, t⟩
  rw [ht] at h
  dsimp only at h
  subst h
  rw [evaluate_of_try_none ht]
  exact ⟨rfl, rfl⟩

/-- Witness for C2: the point 25 lies outside the sample mesh, so every
stage fails and `Evaluate` returns `OutsideDomain` with no vector. -/
theorem evaluate_outsideDomain_no_vector_witness :
    (evaluate esample (25 : Int)).status = Status.OutsideDomain ∧
    (evaluate esample (25 : Int)).value = none :=
  evaluate_outsideDomain_no_vector esample 25 (fun i m ce h1 h2 => by
    cases i with
    | zero =>
        have hm := Option.some.inj h1
        have hc := Option.some.inj h2
        subst hm
        subst hc
        decide
    | succ j => simp [esample, addDataSet, Evaluator.new] at h1)

/-- C3: on a successful `Evaluate` the cache entry of the resolving
dataset is overwritten with the newly resolved cell id and freshly
computed local weights (and that dataset becomes the active one); on a
call that fails on every attached dataset the whole evaluator state —
every prior cache entry included — is left exactly unchanged. -/
theorem evaluate_cache_frame {P V : Type} (e : Evaluator P V) (x : P) :
    ((evaluate e x).status = Status.Success →
      ∃ i c w, (evaluate e x).state.caches = e.caches.set i ⟨some c, w, true⟩ ∧
        (evaluate e x).state.lastDataSetIndex = i ∧
        ∃ m ce, e.datasets[i]? = some m ∧ e.caches[i]? = some ce ∧
          (resolveInDataset m ce x).1 = some (c, w)) ∧
    ((evaluate e x).status = Status.OutsideDomain → (evaluate e x).state = e) := by
  constructor
  · intro h
    rcases evaluate_success_inv h with ⟨i, m, c, w, t, ht⟩
    rcases tryDatasets_some_inv e x (datasetOrder e) i m c w t ht with ⟨hd, ce, hc, hr⟩
    rw [evaluate_of_try_some ht]
    exact ⟨i, c, w, rfl, rfl, m, ce, hd, hc, hr⟩
  · intro h
    rcases evaluate_outside_inv h with ⟨t, ht⟩
    rw [evaluate_of_try_none ht]

/-- Witness for C3: resolving the point 5 on the sample evaluator
overwrites the cache entry of dataset 0, while the failing point 25
leaves the evaluator state exactly unchanged. -/
theorem evaluate_cache_frame_witness :
    (∃ i c w, (evaluate esample (5 : Int)).state.caches =
        esample.caches.set i ⟨some c, w, true⟩ ∧
      (evaluate esample (5 : Int)).state.lastDataSetIndex = i ∧
      ∃ m ce, esample.datasets[i]? = some m ∧ esample.caches[i]? = some ce ∧
        (resolveInDataset m ce (5 : Int)).1 = some (c, w)) ∧
    (evaluate esample (25 : Int)).state = esample :=
  ⟨(evaluate_cache_frame esample 5).1 (by decide),
    (evaluate_cache_frame esample 25).2 (by decide)⟩

/-- C8: when the intra-cell stage resolves the query — the cache entry of
the active dataset is valid and the point still passes the containment
test on the cached cell — `Evaluate` succeeds with the vector
interpolated in that cell, and the full trace of collaborator calls is
the single containment test of the cached cell on the active dataset: no
adjacency-seeded search, no global search, no other cell, no other
dataset. -/
theorem evaluate_intra_cell_only {P V : Type} (e : Evaluator P V) (x : P)
    (m : Mesh P V) (ce : CacheEntry) (c : Int) (w : List Int)
    (hd : e.datasets[e.lastDataSetIndex]? = some m)
    (hc : e.caches[e.lastDataSetIndex]? = some ce)
    (hv : ce.valid = true) (hcell : ce.cellId = some c)
    (hcp : m.containsPoint c x (some ce.weights) = some w) :
    (evaluate e x).status = Status.Success ∧
    (evaluate e x).value = some (m.interpolateAt c w) ∧
    (evaluate e x).trace = [(e.lastDataSetIndex, CollabCall.CPoint c)] := by
  have h1 : stage1 m ce x = (some (c, w), [CollabCall.CPoint c]) := by
    rw [stage1_eq_of_valid m ce x c hv hcell, hcp]
    rfl
  have hres : resolveInDataset m ce x = (some (c, w), [CollabCall.CPoint c]) :=
    resolve_of_stage1 h1
  have hlen : e.lastDataSetIndex < e.datasets.length := (List.getElem?_eq_some.mp hd).1
  have horder : datasetOrder e = e.lastDataSetIndex ::
      (List.range e.datasets.length).filter (fun j => j ≠ e.lastDataSetIndex) := by
    unfold datasetOrder
    rw [if_pos hlen]
  have htry : tryDatasets e x (datasetOrder e) =
      (some (e.lastDataSetIndex, m, c, w),
        [(e.lastDataSetIndex, CollabCall.CPoint c)]) := by
    rw [horder, tryDatasets, hd, hc]
    dsimp only
    rw [hres]
    rfl
  rw [evaluate_of_try_some htry]
  exact ⟨rfl, rfl, rfl⟩

/-- Witness for C8: after resolving the point 5 once, the cache of the
sample evaluator holds cell 0 with valid weights, and re-evaluating a
point of cell 0 goes through the intra-cell stage alone: the whole trace
is one containment test of cell 0 on dataset 0. -/
theorem evaluate_intra_cell_only_witness :
    (evaluate (evaluate esample (5 : Int)).state (5 : Int)).status =
      Status.Success ∧
    (evaluate (evaluate esample (5 : Int)).state (5 : Int)).value =
      some (msample.interpolateAt 0 [5]) ∧
    (evaluate (evaluate esample (5 : Int)).state (5 : Int)).trace =
      [((evaluate esample (5 : Int)).state.lastDataSetIndex,
        CollabCall.CPoint 0)] :=
  evaluate_intra_cell_only (evaluate esample (5 : Int)).state 5 msample
    ⟨some 0, [5], true⟩ 0 [5] rfl rfl rfl rfl (by decide)

theorem evaluate_fixpoint {P V : Type} (e2 : Evaluator P V) (x : P) (i : Nat)
    (m : Mesh P V) (c : Int) (w : List Int)
    (hlast : e2.lastDataSetIndex = i)
    (hd : e2.datasets[i]? = some m)
    (hc : e2.caches[i]? = some ⟨some c, w, true⟩)
    (hcp : m.containsPoint c x (some w) = some w) :
    evaluate e2 x =
      { value := some (m.interpolateAt c w)
        status := Status.Success
        state := { e2 with
          caches := e2.caches.set i ⟨some c, w, true⟩
          lastDataSetIndex := i }
        trace := [(i, CollabCall.CPoint c)] } := by
  subst hlast
  have h1 : stage1 m ⟨some c, w, true⟩ x = (some (c, w), [CollabCall.CPoint c]) := by
    rw [stage1_eq_of_valid m ⟨some c, w, true⟩ x c rfl rfl]
    dsimp only
    rw [hcp]
    rfl
  have hres : resolveInDataset m ⟨some c, w, true⟩ x =
      (some (c, w), [CollabCall.CPoint c]) := resolve_of_stage1 h1
  have hlen : e2.lastDataSetIndex < e2.datasets.length :=
    (List.getElem?_eq_some.mp hd).1
  have horder : datasetOrder e2 = e2.lastDataSetIndex ::
      (List.range e2.datasets.length).filter (fun j => j ≠ e2.lastDataSetIndex) := by
    unfold datasetOrder
    rw [if_pos hlen]
  have htry : tryDatasets e2 x (datasetOrder e2) =
      (some (e2.lastDataSetIndex, m, c, w),
        [(e2.lastDataSetIndex, CollabCall.CPoint c)]) := by
    rw [horder, tryDatasets, hd, hc]
    dsimp only
    rw [hres]
    rfl
  exact evaluate_of_try_some htry

/-- C6: under a collaborator whose containment test is hint-independent
(the hint is a speed hint only, as the spec's single-source-of-truth
policy requires), calling `Evaluate` twice in succession with the
identical point yields the identical vector (or identical failure), and
the second call leaves the evaluator state — cache entry included —
exactly as the first call left it. -/
theorem evaluate_idempotent {P V : Type} (e : Evaluator P V) (x : P)
    (hind : ∀ m ∈ e.datasets, HintIndep m) :
    (evaluate (evaluate e x).state x).value = (evaluate e x).value ∧
    (evaluate (evaluate e x).state x).state = (evaluate e x).state := by
  rcases ht : tryDatasets e x (datasetOrder e) with ⟨r, t⟩
  cases r with
  | none =>
      rw [evaluate_of_try_none ht]
      dsimp only
      rw [evaluate_of_try_none ht]
      exact ⟨rfl, rfl⟩
  | some q =>
  rcases q with ⟨i, m, c, w⟩
  rcases tryDatasets_some_inv e x (datasetOrder e) i m c w t ht with ⟨hd, ce, hc, hr⟩
  have hlen : i < e.datasets.length := (List.getElem?_eq_some.mp hd).1
  have hclen : i < e.caches.length := (List.getElem?_eq_some.mp hc).1
  have hmem : m ∈ e.datasets := by
    rcases List.getElem?_eq_some.mp hd with ⟨hl, hget⟩
    exact hget ▸ List.getElem_mem hl
  have hcp0 : m.containsPoint c x none = some w :=
    resolve_contains_of_hintIndep (hind m hmem) hr
  have hcp : m.containsPoint c x (some w) = some w := by
    rw [hind m hmem c x (some w)]
    exact hcp0
  have heq1 := evaluate_of_try_some ht
  have heval2 : evaluate ({ e with
        caches := e.caches.set i ⟨some c, w, true⟩
        lastDataSetIndex := i } : Evaluator P V) x =
      { value := some (m.interpolateAt c w)
        status := Status.Success
        state := { e with
          caches := (e.caches.set i ⟨some c, w, true⟩).set i ⟨some c, w, true⟩
          lastDataSetIndex := i }
        trace := [(i, CollabCall.CPoint c)] } :=
    evaluate_fixpoint _ x i m c w rfl hd (List.getElem?_set_self hclen) hcp
  rw [heq1]
  dsimp only
  rw [heval2]
  dsimp only
  constructor
  · rfl
  · rw [List.set_set]

/-- Witness for C6: re-evaluating the point 5 on the sample evaluator
returns the same vector and leaves the state exactly as the first
evaluation left it. -/
theorem evaluate_idempotent_witness :
    (evaluate (evaluate esample (5 : Int)).state (5 : Int)).value =
      (evaluate esample (5 : Int)).value ∧
    (evaluate (evaluate esample (5 : Int)).state (5 : Int)).state =
      (evaluate esample (5 : Int)).state :=
  evaluate_idempotent esample 5
    (fun m hm => by
      simp [esample, addDataSet, Evaluator.new] at hm
      subst hm
      intro c x h
      rfl)

/-- C9: after `SetLastCellId` seeds a cell id without recomputed weights,
the seeded entry's weights are flagged invalid, and if the next
`Evaluate` resolves at the seeded dataset its vector is interpolated from
weights produced by a successful containment test at the queried point
with no stale hint — never from the pre-override weights — and the cache
is refreshed with those recomputed weights. -/
theorem evaluate_after_seed_recomputes_weights {P V : Type} (e : Evaluator P V)
    (c0 : Int) (idx : Nat) (x : P)
    (hseed : (setLastCellId e c0 idx).1 = Status.Success)
    (hs : (evaluate (setLastCellId e c0 idx).2 x).status = Status.Success)
    (hres : (evaluate (setLastCellId e c0 idx).2 x).state.lastDataSetIndex = idx) :
    ∃ m c w, e.datasets[idx]? = some m ∧
      m.containsPoint c x none = some w ∧
      (evaluate (setLastCellId e c0 idx).2 x).value = some (m.interpolateAt c w) ∧
      (evaluate (setLastCellId e c0 idx).2 x).state.caches[idx]? =
        some ⟨some c, w, true⟩ := by
  rcases hco : e.caches[idx]? with _ | ce
  · exfalso
    unfold setLastCellId at hseed
    rw [hco] at hseed
    simp at hseed
  · have he2 : (setLastCellId e c0 idx).2 = { e with
        caches := e.caches.set idx { ce with cellId := some c0, valid := false }
        lastDataSetIndex := idx } := by
      unfold setLastCellId
      rw [hco]
    have hclen : idx < e.caches.length := (List.getElem?_eq_some.mp hco).1
    rcases evaluate_success_inv hs with ⟨i, m, c, w, t, ht⟩
    have heval := evaluate_of_try_some ht
    have hii : i = idx := by
      rw [heval] at hres
      exact hres
    subst hii
    rcases tryDatasets_some_inv _ x _ i m c w t ht with ⟨hd, ce2, hc2, hr⟩
    have hd0 : e.datasets[i]? = some m := by
      rw [he2] at hd
      exact hd
    have hce2 : ce2 = { ce with cellId := some c0, valid := false } := by
      rw [he2] at hc2
      dsimp only at hc2
      rw [List.getElem?_set_self hclen] at hc2
      exact (Option.some.inj hc2).symm
    have hv : ce2.valid = false := by rw [hce2]
    have hcp : m.containsPoint c x none = some w :=
      resolve_contains_of_invalid hv hr
    refine ⟨m, c, w, hd0, hcp, ?_, ?_⟩
    · rw [heval]
    · rw [heval]
      dsimp only
      rw [he2]
      dsimp only
      exact List.getElem?_set_self (by rw [List.length_set]; exact hclen)

/-- Witness for C9: seeding cell 1 in the sample evaluator and then
evaluating the point 12 (which lies in cell 1) resolves at the seeded
dataset with weights recomputed by a fresh hint-free containment test. -/
theorem evaluate_after_seed_recomputes_weights_witness :
    ∃ m c w, esample.datasets[0]? = some m ∧
      m.containsPoint c (12 : Int) none = some w ∧
      (evaluate (setLastCellId esample 1 0).2 (12 : Int)).value =
        some (m.interpolateAt c w) ∧
      (evaluate (setLastCellId esample 1 0).2 (12 : Int)).state.caches[0]? =
        some ⟨some c, w, true⟩ :=
  evaluate_after_seed_recomputes_weights esample 1 0 12
    (by decide) (by decide) (by decide)
